import Mathlib

/-!
Shallow embedding of the response-resolution pipeline of the Laila Telegram
bot (src/main.py).  Strings are modelled as lists of characters; the ASCII
fragment of Python's `str.lower` is modelled explicitly; Python's `re.sub`
passes used by the code (the `laila`-particle stripper and the whitespace
collapser) are modelled as executable structural recursions.  External
services (the Google-Sheets answer cache, the generative backend, the names
sheet, the clock) are modelled as explicit parameters/oracles, and the
pipeline reports the external calls it makes in an `Effects` record.
-/

/-- Character strings, modelled as lists of characters. -/
abbrev Str := List Char

/-- Conversion from Lean string literals to the `Str` model. -/
def strL (s : String) : Str := s.data

/-- The whitespace class of Python's `\s` (ASCII fragment) and `str.strip`. -/
def isSpace (c : Char) : Bool :=
  c = ' ' || c = '\t' || c = '\n' || c = '\r' || c = '\x0B' || c = '\x0C'

/-- ASCII fragment of Python's `str.lower` on a single character. -/
def lowerChar (c : Char) : Char :=
  if 65 ≤ c.toNat ∧ c.toNat ≤ 90 then Char.ofNat (c.toNat + 32) else c

/-- ASCII fragment of Python's `str.lower`. -/
def lowerStr (l : Str) : Str := l.map lowerChar

/-- Python's substring test `needle in hay` (also `re.search` of a literal
pattern). -/
def containsSub (needle : Str) : Str → Bool
  | [] => needle.isEmpty
  | c :: rest => needle.isPrefixOf (c :: rest) || containsSub needle rest

/-- Fuelled worker for `removeAll`; the fuel is the length of the haystack,
so the fuel-exhausted branch is never reached at the call below. -/
def removeAllF (needle : Str) : Nat → Str → Str
  | _, [] => []
  | 0, hay => hay
  | fuel + 1, c :: rest =>
    if !needle.isEmpty && needle.isPrefixOf (c :: rest) then
      removeAllF needle fuel ((c :: rest).drop needle.length)
    else
      c :: removeAllF needle fuel rest

/-- Python's `str.replace(needle, "")`: delete every (leftmost,
non-overlapping) occurrence of `needle`. -/
def removeAll (needle hay : Str) : Str := removeAllF needle hay.length hay

/-- Length of a match of the regex `laila\s*(ko|ka|se|ne|)\s*` anchored at
the start of `hay` (`none` when the regex does not match there).  The
alternation prefers a two-letter particle over the empty alternative, and
both `\s*` are greedy, exactly as in Python's leftmost-first matching. -/
def lailaMatchLen (hay : Str) : Option Nat :=
  if (strL "laila").isPrefixOf hay then
    let r1 := hay.drop 5
    let w1 := (r1.takeWhile isSpace).length
    let r2 := r1.drop w1
    let p := if (strL "ko").isPrefixOf r2 || (strL "ka").isPrefixOf r2 ||
                (strL "se").isPrefixOf r2 || (strL "ne").isPrefixOf r2 then 2 else 0
    let r3 := r2.drop p
    let w2 := (r3.takeWhile isSpace).length
    some (5 + w1 + p + w2)
  else
    none

/-- Fuelled worker for `lailaSub`; the fuel is the length of the haystack. -/
def lailaSubF : Nat → Str → Str
  | _, [] => []
  | 0, hay => hay
  | fuel + 1, c :: rest =>
    match lailaMatchLen (c :: rest) with
    | some n => lailaSubF fuel ((c :: rest).drop n)
    | none => c :: lailaSubF fuel rest

/-- Python's `re.sub(r'laila\s*(ko|ka|se|ne|)\s*', '', s, flags=IGNORECASE)`
on an already lower-cased string: delete every leftmost non-overlapping
match. -/
def lailaSub (hay : Str) : Str := lailaSubF hay.length hay

/-- Python's `re.sub(r'\s+', ' ', s)`: replace every maximal whitespace run
by a single space. -/
def collapseWs : Str → Str
  | [] => []
  | a :: rest =>
    if isSpace a then
      match rest with
      | [] => [' ']
      | b :: _ => if isSpace b then collapseWs rest else ' ' :: collapseWs rest
    else
      a :: collapseWs rest

/-- Python's `str.strip()`: drop whitespace from both ends. -/
def stripEnds (l : Str) : Str :=
  ((l.dropWhile isSpace).reverse.dropWhile isSpace).reverse

/-- The question-normalisation function `clean_message_for_logging`:
lower-case, delete `@<bot_username>` occurrences, delete
`laila\s*(ko|ka|se|ne|)\s*` matches, collapse whitespace and strip. -/
def cleanMessage (msg username : Str) : Str :=
  stripEnds (collapseWs (lailaSub (removeAll ('@' :: lowerStr username) (lowerStr msg))))

/-- The `SENSITIVE_KEYWORDS` list of the source. -/
def sensitiveKeywords : List Str :=
  [strL "phone", strL "number", strL "address", strL "password", strL "pancard",
   strL "aadhar", strL "account", strL "credit card", strL "debit card", strL "pin",
   strL "otp", strL "ssn", strL "cvv", strL "date of birth",
   strL "जन्मतिथि", strL "पैन कार्ड", strL "आधार", strL "खाता",
   strL "पासवर्ड", strL "ओटीपी", strL "पिन"]

/-- The sensitive-content filter `contains_sensitive_data`. -/
def containsSensitiveData (t : Str) : Bool :=
  sensitiveKeywords.any fun k => containsSub k (lowerStr t)

/-- The answer-cache lookup `find_answer_in_sheet`.  The spreadsheet content
is the `rows` parameter; `connOk` models whether the connection succeeds and
`readOk` whether `get_all_records` succeeds.  The second component counts
interactions attempted with the external store (0 exactly when the function
returns before touching it). -/
def findAnswerInSheet (q : Str) (rows : List (Str × Str)) (connOk readOk : Bool) :
    Option Str × Nat :=
  if containsSensitiveData q then (none, 0)
  else if !connOk then (none, 1)
  else if !readOk then (none, 1)
  else ((rows.find? fun r => lowerStr r.1 == lowerStr q).map Prod.snd, 1)

/-- The answer-cache write `save_qa_to_sheet`; returns the rows after the
call and the number of interactions attempted with the external store. -/
def saveQaToSheet (q a : Str) (rows : List (Str × Str)) (connOk appendOk : Bool) :
    List (Str × Str) × Nat :=
  if containsSensitiveData q then (rows, 0)
  else if !connOk then (rows, 1)
  else if !appendOk then (rows, 1)
  else (rows ++ [(q, a)], 1)

/-- The static `fallback_responses` dictionary of the source. -/
def fallbackResponses : List (Str × Str) :=
  [(strL "hello", strL "Hello! Laila is here. How are you?"),
   (strL "hi", strL "Hi there! Laila is ready to help you."),
   (strL "how are you", strL "I\x27m doing great! Just ready to assist you with anything you need."),
   (strL "who are you", strL "I am Laila, your friendly AI assistant! You can ask me anything you want.")]

/-- The `date_time_patterns` of `get_bot_response` (all literal patterns, so
`re.search` is a substring test). -/
def dateTimePatterns : List Str :=
  [strL "time kya hai", strL "what is the time", strL "samay kya hai",
   strL "kitne baje hain", strL "aaj ki date kya hai", strL "aaj kya tarikh hai",
   strL "what is the date"]

/-- The `name_query_patterns` of `get_bot_response`; the trailing
`\s*(\?)*` of each pattern matches the empty string, so `re.search` reduces
to a substring test of the literal part. -/
def nameQueryPatterns : List Str :=
  [strL "mera naam kya hai", strL "what is my name", strL "whats my name",
   strL "tumhe mera naam pata hai", strL "do you know my name",
   strL "kya bulaogi mujhe"]

/-- The reply of the date/time branch; `timeStr` and `dateStr` stand for the
strftime-formatted current Kolkata time and date (external clock). -/
def dateTimeReply (lowMsg timeStr dateStr : Str) : Str :=
  if containsSub (strL "time") lowMsg || containsSub (strL "samay") lowMsg ||
      containsSub (strL "baje") lowMsg then
    strL "Abhi " ++ timeStr ++ strL " ho rahe hain."
  else if containsSub (strL "date") lowMsg || containsSub (strL "tarikh") lowMsg then
    strL "Aaj " ++ dateStr ++ strL " hai."
  else
    strL "Abhi " ++ timeStr ++ strL " ho rahe hain aur aaj " ++ dateStr ++ strL " hai."

/-- Reply when the stored user name is found. -/
def nameKnownReply (n : Str) : Str :=
  strL "Aapka naam **" ++ n ++ strL "** hai, jaisa ki aapne mujhe bataya tha."

/-- Reply when no stored user name exists. -/
def nameUnknownReply : Str := strL "Mujhe abhi tak aapka naam nahi pata."

/-- Reply on a `BlockedPromptException`. -/
def blockedMsg : Str := strL "Apologies, I can\x27t discuss that topic."

/-- Reply on a generic (non-quota) backend error `e`. -/
def errorReplyMsg (m : Str) : Str :=
  strL "Oops! I couldn\x27t understand that. The error was: " ++ m

/-- The fixed offline fallback message. -/
def offlineMsg : Str := strL "Apologies, I\x27m currently offline. Please try again later."

/-- Outcome of one call to the primary generative backend: a successful
text, a `BlockedPromptException`, or a generic exception whose string
representation is `m`. -/
inductive GenOutcome where
  | success (s : Str)
  | blockedPrompt
  | failure (m : Str)
deriving DecidableEq

/-- The quota test of the source: the exception text contains
"429 Quota exceeded", "You exceeded your current quota" or "500". -/
def isQuotaError (m : Str) : Bool :=
  containsSub (strL "429 Quota exceeded") m ||
  containsSub (strL "You exceeded your current quota") m ||
  containsSub (strL "500") m

/-- How the credential-rotation loop of `get_bot_response` ends. -/
inductive RotResult where
  | answered (s : Str)
  | blockedReply
  | errorReply (m : Str)
  | exhausted
deriving DecidableEq

/-- Final state of the credential-rotation loop: its result, the global
credential index, the per-key cooldown map, and the number of backend calls
made. -/
structure RotOut where
  result : RotResult
  idx : Nat
  cooldownUntil : Str → Nat
  calls : Nat

/-- The credential-rotation loop of `get_bot_response` (the
`while retries < max_retries` loop).  `fuel` is `max_retries - retries`;
`oracle n` is the outcome of the `(n+1)`-st backend call of the process;
`now` is `time.time()`.  A cooling key is skipped (consuming one retry); a
quota failure sets a one-hour cooldown on the active key and rotates
(consuming one retry); success, a blocked prompt and a non-quota failure
return immediately. -/
def rotLoop (keys : List Str) (now : Nat) (oracle : Nat → GenOutcome) :
    Nat → Nat → (Str → Nat) → Nat → RotOut
  | 0, idx, cd, calls => ⟨.exhausted, idx, cd, calls⟩
  | fuel + 1, idx, cd, calls =>
    if now < cd (keys.getD idx []) then
      rotLoop keys now oracle fuel ((idx + 1) % keys.length) cd calls
    else
      match oracle calls with
      | .success s => ⟨.answered s, idx, cd, calls + 1⟩
      | .blockedPrompt => ⟨.blockedReply, idx, cd, calls + 1⟩
      | .failure m =>
        if isQuotaError m then
          rotLoop keys now oracle fuel ((idx + 1) % keys.length)
            (fun k => if k = keys.getD idx [] then now + 3600 else cd k) (calls + 1)
        else ⟨.errorReply m, idx, cd, calls + 1⟩

/-- External calls made by one run of the resolver, plus the
`awaiting_name` flag it may set. -/
structure Effects where
  namesLookups : Nat
  sheetLookups : Nat
  sheetSaveCalls : Nat
  backendCalls : Nat
  gemmaCalls : Nat
  setAwaitingName : Bool
deriving DecidableEq

/-- No external calls, no flag set. -/
def zeroEffects : Effects := ⟨0, 0, 0, 0, 0, false⟩

/-- Result of one resolver run: the optional reply, the effects, and the
answer-cache rows after the run. -/
structure ResolveOut where
  resp : Option Str
  eff : Effects
  rows : List (Str × Str)
deriving DecidableEq

/-- Everything `get_bot_response` consults besides the message text:
the bot username, the gate decision and chat kind, the stored user name
(names sheet), the answer-cache state and its availability flags, the
credential list with rotation state and clock, the backend oracle, the
secondary (Gemma) configuration, and the formatted current time/date. -/
structure ResolverEnv where
  username : Str
  shouldUseAI : Bool
  isPrivate : Bool
  storedUserName : Option Str
  rows : List (Str × Str)
  connOk : Bool
  readOk : Bool
  appendOk : Bool
  keys : List Str
  idx0 : Nat
  now : Nat
  cooldownUntil : Str → Nat
  oracle : Nat → GenOutcome
  gemmaKey : Bool
  gemmaOutcome : Option Str
  timeStr : Str
  dateStr : Str

/-- The response resolver `get_bot_response`: date/time branch, then
name-query branch, then answer-cache lookup, then static dictionary, then
(if gated in) the credential-rotation loop with Gemma/offline fallback;
`none` models Python's `return None` on the final ungated path. -/
def getBotResponse (msg : Str) (env : ResolverEnv) : ResolveOut :=
  if dateTimePatterns.any (fun p => containsSub p (lowerStr msg)) then
    ⟨some (dateTimeReply (lowerStr msg) env.timeStr env.dateStr), zeroEffects, env.rows⟩
  else if nameQueryPatterns.any (fun p => containsSub p (lowerStr msg)) then
    match env.storedUserName with
    | some n => ⟨some (nameKnownReply n), ⟨1, 0, 0, 0, 0, false⟩, env.rows⟩
    | none => ⟨some nameUnknownReply, ⟨1, 0, 0, 0, 0, true⟩, env.rows⟩
  else
    match findAnswerInSheet (cleanMessage msg env.username) env.rows env.connOk env.readOk with
    | (some ans, k) => ⟨some ans, ⟨0, k, 0, 0, 0, false⟩, env.rows⟩
    | (none, k) =>
      match (fallbackResponses.find? fun p => p.1 == cleanMessage msg env.username).map Prod.snd with
      | some s => ⟨some s, ⟨0, k, 0, 0, 0, false⟩, env.rows⟩
      | none =>
        if env.shouldUseAI || env.isPrivate then
          match rotLoop env.keys env.now env.oracle env.keys.length env.idx0 env.cooldownUntil 0 with
          | ⟨.answered s, _, _, n⟩ =>
            match saveQaToSheet (cleanMessage msg env.username) s env.rows env.connOk env.appendOk with
            | (rows2, m) => ⟨some s, ⟨0, k, m, n, 0, false⟩, rows2⟩
          | ⟨.blockedReply, _, _, n⟩ => ⟨some blockedMsg, ⟨0, k, 0, n, 0, false⟩, env.rows⟩
          | ⟨.errorReply e, _, _, n⟩ => ⟨some (errorReplyMsg e), ⟨0, k, 0, n, 0, false⟩, env.rows⟩
          | ⟨.exhausted, _, _, n⟩ =>
            if env.gemmaKey then
              match env.gemmaOutcome with
              | some s =>
                match saveQaToSheet (cleanMessage msg env.username) s env.rows env.connOk env.appendOk with
                | (rows2, m) => ⟨some s, ⟨0, k, m, n, 1, false⟩, rows2⟩
              | none => ⟨some offlineMsg, ⟨0, k, 0, n, 1, false⟩, env.rows⟩
            else ⟨some offlineMsg, ⟨0, k, 0, n, 0, false⟩, env.rows⟩
        else ⟨none, ⟨0, k, 0, 0, 0, false⟩, env.rows⟩

/-- One conversation turn as stored in `chat_histories`:
`{'role': role, 'parts': [text]}`. -/
structure HistTurn where
  role : Str
  parts : List Str
deriving DecidableEq

/-- The history bound `MAX_HISTORY_LENGTH` of the source. -/
def MAX_HISTORY_LENGTH : Nat := 20

/-- The history append `add_to_history` for one chat: append the turn and
pop the oldest when the bound is exceeded. -/
def addToHistory (h : List HistTurn) (role text : Str) : List HistTurn :=
  let h2 := h ++ [⟨role, [text]⟩]
  if MAX_HISTORY_LENGTH < h2.length then h2.tail else h2

/-- The turn built from one `(role, text)` append. -/
def mkTurn (e : Str × Str) : HistTurn := ⟨e.1, [e.2]⟩

/-- The history of a fresh chat after a sequence of appends. -/
def runHistory (es : List (Str × Str)) : List HistTurn :=
  es.foldl (fun h e => addToHistory h e.1 e.2) []

/-- Outcome of the message-processing decision logic of `process_message`
up to the point where `get_bot_response` is invoked or the message is
dropped. -/
inductive ProcOutcome where
  | disabled
  | noText
  | nameSaved
  | respond
  | ignore
deriving DecidableEq

/-- The decision logic of `process_message`: the global/per-chat enable
check (private chats bypass the per-chat flag), the no-text check, the
AI-based name-saving early return, and the intent gate
(`should_use_ai = is_private or is_reply_to_bot or is_mention`, with the
auxiliary classifier consulted otherwise).  `nameFound` models a non-`None`
result of `get_name_from_ai`; `classifierYes` models
`is_message_for_laila`. -/
def processDecision (globalOn chatOn isPrivate : Bool) (msg : Option Str)
    (username : Str) (isReplyToBot nameFound classifierYes : Bool) : ProcOutcome :=
  if !globalOn || (!isPrivate && !chatOn) then .disabled
  else
    match msg with
    | none => .noText
    | some t =>
      if nameFound then .nameSaved
      else
        if isPrivate || isReplyToBot ||
            (containsSub ('@' :: lowerStr username) (lowerStr t) ||
             containsSub (strL "laila") (lowerStr t)) then .respond
        else if classifierYes then .respond
        else .ignore

/-- Concrete environment: cache holds a learned answer for "hi". -/
def envCacheHit : ResolverEnv :=
  ⟨strL "somebot", true, true, none, [(strL "hi", strL "cached answer")],
   true, true, true, [strL "k1"], 0, 0, fun _ => 0, fun _ => .success (strL "x"),
   false, none, strL "9:00 AM", strL "January 01, 2026"⟩

/-- Concrete environment: empty cache with the connection down, no gate. -/
def envNoGate : ResolverEnv :=
  ⟨strL "somebot", false, false, none, [], false, false, false, [], 0, 0,
   fun _ => 0, fun _ => .success (strL "x"), false, none, strL "9:00 AM",
   strL "January 01, 2026"⟩

/-- Concrete environment: empty cache with the connection down, gated in. -/
def envGated : ResolverEnv :=
  ⟨strL "somebot", true, false, none, [], false, false, false, [], 0, 0,
   fun _ => 0, fun _ => .success (strL "x"), false, none, strL "9:00 AM",
   strL "January 01, 2026"⟩

/-- Five concrete credential keys. -/
def quotaKeys : List Str := [strL "a", strL "b", strL "c", strL "d", strL "e"]

/-- A backend oracle whose every call fails with a quota error. -/
def quotaOracle : Nat → GenOutcome := fun _ => .failure (strL "429 Quota exceeded")

/-! Helper lemmas about the normalisation pipeline. -/

/-- Char.ofNat on a scalar value below the surrogate range keeps the value. -/
theorem toNat_ofNat_valid (n : Nat) (h : n < 55296) : (Char.ofNat n).toNat = n := by
  have hv : n.isValidChar := Or.inl h
  rw [Char.ofNat, dif_pos hv]
  rfl

/-- The code point of `lowerChar`. -/
theorem lowerChar_toNat (c : Char) :
    (lowerChar c).toNat = if 65 ≤ c.toNat ∧ c.toNat ≤ 90 then c.toNat + 32 else c.toNat := by
  unfold lowerChar
  split
  case isTrue h => exact toNat_ofNat_valid _ (by omega)
  case isFalse h => rfl

/-- lowerChar is the identity outside the upper-case range. -/
theorem lowerChar_eq_self (c : Char) (h : ¬(65 ≤ c.toNat ∧ c.toNat ≤ 90)) :
    lowerChar c = c := by
  unfold lowerChar
  exact if_neg h

/-- lowerChar is idempotent. -/
theorem lowerChar_idem (c : Char) : lowerChar (lowerChar c) = lowerChar c := by
  by_cases h : 65 ≤ c.toNat ∧ c.toNat ≤ 90
  · apply lowerChar_eq_self
    rw [lowerChar_toNat, if_pos h]
    omega
  · rw [lowerChar_eq_self c h]
    exact lowerChar_eq_self c h

/-- Unfolding equation: leading space followed by space. -/
theorem collapseWs_cons_space_space {a b : Char} (rs : Str) (ha : isSpace a = true)
    (hb : isSpace b = true) : collapseWs (a :: b :: rs) = collapseWs (b :: rs) := by
  simp [collapseWs, ha, hb]

/-- Unfolding equation: leading space followed by non-space. -/
theorem collapseWs_cons_space_cons {a b : Char} (rs : Str) (ha : isSpace a = true)
    (hb : isSpace b = false) : collapseWs (a :: b :: rs) = ' ' :: collapseWs (b :: rs) := by
  simp [collapseWs, ha, hb]

/-- Unfolding equation: leading non-space. -/
theorem collapseWs_cons_not {a : Char} (rest : Str) (ha : isSpace a = false) :
    collapseWs (a :: rest) = a :: collapseWs rest := by
  simp [collapseWs, ha]

/-- Unfolding equation: a single space. -/
theorem collapseWs_single_space {a : Char} (ha : isSpace a = true) :
    collapseWs [a] = [' '] := by
  simp [collapseWs, ha]

/-- Characters of `removeAllF` output come from the haystack. -/
theorem mem_removeAllF {needle : Str} :
    ∀ {f : Nat} {hay : Str} {c : Char}, c ∈ removeAllF needle f hay → c ∈ hay := by
  intro f
  induction f with
  | zero =>
    intro hay c h
    cases hay <;> simpa [removeAllF] using h
  | succ f ih =>
    intro hay c h
    cases hay with
    | nil => simp [removeAllF] at h
    | cons a rest =>
      simp only [removeAllF] at h
      by_cases hc : (!needle.isEmpty && needle.isPrefixOf (a :: rest)) = true
      · rw [if_pos hc] at h
        exact List.mem_of_mem_drop (ih h)
      · rw [if_neg hc] at h
        rcases List.mem_cons.mp h with rfl | h2
        · exact List.mem_cons_self _ _
        · exact List.mem_cons_of_mem _ (ih h2)

/-- Characters of `lailaSubF` output come from the haystack. -/
theorem mem_lailaSubF :
    ∀ {f : Nat} {hay : Str} {c : Char}, c ∈ lailaSubF f hay → c ∈ hay := by
  intro f
  induction f with
  | zero =>
    intro hay c h
    cases hay <;> simpa [lailaSubF] using h
  | succ f ih =>
    intro hay c h
    cases hay with
    | nil => simp [lailaSubF] at h
    | cons a rest =>
      simp only [lailaSubF] at h
      cases hm : lailaMatchLen (a :: rest) with
      | some n =>
        rw [hm] at h
        exact List.mem_of_mem_drop (ih h)
      | none =>
        rw [hm] at h
        rcases List.mem_cons.mp h with rfl | h2
        · exact List.mem_cons_self _ _
        · exact List.mem_cons_of_mem _ (ih h2)

/-- Characters of `collapseWs` output come from the input or are a space. -/
theorem mem_collapseWs :
    ∀ {l : Str} {c : Char}, c ∈ collapseWs l → c ∈ l ∨ c = ' '
  | [], c, h => by simp [collapseWs] at h
  | a :: rest, c, h => by
    by_cases hsa : isSpace a = true
    · cases rest with
      | nil =>
        rw [collapseWs_single_space hsa] at h
        simp at h
        exact Or.inr h
      | cons b rs =>
        by_cases hsb : isSpace b = true
        · rw [collapseWs_cons_space_space rs hsa hsb] at h
          rcases mem_collapseWs h with h2 | h2
          · exact Or.inl (List.mem_cons_of_mem _ h2)
          · exact Or.inr h2
        · rw [collapseWs_cons_space_cons rs hsa (by simpa using hsb)] at h
          rcases List.mem_cons.mp h with rfl | h2
          · exact Or.inr rfl
          · rcases mem_collapseWs h2 with h3 | h3
            · exact Or.inl (List.mem_cons_of_mem _ h3)
            · exact Or.inr h3
    · rw [collapseWs_cons_not rest (by simpa using hsa)] at h
      rcases List.mem_cons.mp h with rfl | h2
      · exact Or.inl (List.mem_cons_self _ _)
      · rcases mem_collapseWs h2 with h3 | h3
        · exact Or.inl (List.mem_cons_of_mem _ h3)
        · exact Or.inr h3

/-- Characters of `stripEnds` output come from the input. -/
theorem mem_stripEnds {l : Str} {c : Char} (h : c ∈ stripEnds l) : c ∈ l := by
  unfold stripEnds at h
  have h1 := List.mem_reverse.mp h
  have h2 := (List.dropWhile_sublist isSpace).mem h1
  have h3 := List.mem_reverse.mp h2
  exact (List.dropWhile_sublist isSpace).mem h3

/-- Every character of a cleaned message is lower-case stable. -/
theorem clean_chars_lower (msg u : Str) :
    ∀ c ∈ cleanMessage msg u, lowerChar c = c := by
  intro c hc
  unfold cleanMessage at hc
  have h1 := mem_stripEnds hc
  rcases mem_collapseWs h1 with h2 | rfl
  · unfold lailaSub at h2
    have h3 := mem_lailaSubF h2
    unfold removeAll at h3
    have h4 := mem_removeAllF h3
    unfold lowerStr at h4
    rcases List.mem_map.mp h4 with ⟨d, _, rfl⟩
    exact lowerChar_idem d
  · decide

/-- The cleaned message is already lower-case. -/
theorem lowerStr_clean (msg u : Str) :
    lowerStr (cleanMessage msg u) = cleanMessage msg u := by
  unfold lowerStr
  calc (cleanMessage msg u).map lowerChar
      = (cleanMessage msg u).map id :=
        List.map_congr_left fun a ha => clean_chars_lower msg u a ha
    _ = cleanMessage msg u := List.map_id _

/-- Adjacent characters are never both whitespace. -/
def wsR : Char → Char → Prop := fun a b => ¬(isSpace a = true ∧ isSpace b = true)

/-- wsR is symmetric. -/
theorem wsR_symm {a b : Char} (h : wsR a b) : wsR b a := by
  unfold wsR at h ⊢
  tauto

/-- Whitespace in `collapseWs` output is always the plain space. -/
theorem collapseWs_space_eq :
    ∀ {l : Str} {c : Char}, c ∈ collapseWs l → isSpace c = true → c = ' '
  | [], c, h, _ => by simp [collapseWs] at h
  | a :: rest, c, h, hws => by
    by_cases hsa : isSpace a = true
    · cases rest with
      | nil =>
        rw [collapseWs_single_space hsa] at h
        simpa using h
      | cons b rs =>
        by_cases hsb : isSpace b = true
        · rw [collapseWs_cons_space_space rs hsa hsb] at h
          exact collapseWs_space_eq h hws
        · rw [collapseWs_cons_space_cons rs hsa (by simpa using hsb)] at h
          rcases List.mem_cons.mp h with rfl | h2
          · rfl
          · exact collapseWs_space_eq h2 hws
    · rw [collapseWs_cons_not rest (by simpa using hsa)] at h
      rcases List.mem_cons.mp h with rfl | h2
      · exact absurd hws hsa
      · exact collapseWs_space_eq h2 hws

/-- `collapseWs` output never has two adjacent whitespace characters. -/
theorem chain'_collapseWs : ∀ (l : Str), List.Chain' wsR (collapseWs l)
  | [] => by simp [collapseWs]
  | a :: rest => by
    by_cases hsa : isSpace a = true
    · cases rest with
      | nil =>
        rw [collapseWs_single_space hsa]
        simp
      | cons b rs =>
        by_cases hsb : isSpace b = true
        · rw [collapseWs_cons_space_space rs hsa hsb]
          exact chain'_collapseWs (b :: rs)
        · have hb2 : isSpace b = false := by simpa using hsb
          rw [collapseWs_cons_space_cons rs hsa hb2]
          rw [List.chain'_cons']
          refine ⟨?_, chain'_collapseWs (b :: rs)⟩
          intro y hy
          rw [collapseWs_cons_not rs hb2] at hy
          simp at hy
          subst hy
          exact fun hand => hsb hand.2
    · have ha2 : isSpace a = false := by simpa using hsa
      rw [collapseWs_cons_not rest ha2]
      rw [List.chain'_cons']
      refine ⟨?_, chain'_collapseWs rest⟩
      intro y _
      exact fun hand => hsa hand.1

/-- `dropWhile` preserves adjacency-free whitespace. -/
theorem chain'_dropWhile {R : Char → Char → Prop} {p : Char → Bool} :
    ∀ {l : Str}, List.Chain' R l → List.Chain' R (l.dropWhile p)
  | [], _ => by simp
  | a :: rest, h => by
    by_cases hp : p a = true
    · rw [List.dropWhile_cons_of_pos hp]
      exact chain'_dropWhile h.tail
    · rw [List.dropWhile_cons_of_neg (by simp [hp])]
      exact h

/-- Reversal preserves adjacency-free whitespace. -/
theorem chain'_reverse_wsR {l : Str} (h : List.Chain' wsR l) :
    List.Chain' wsR l.reverse := by
  rw [List.chain'_reverse]
  exact List.Chain'.imp (fun a b hab => wsR_symm hab) h

/-- `stripEnds` preserves adjacency-free whitespace. -/
theorem chain'_stripEnds {l : Str} (h : List.Chain' wsR l) :
    List.Chain' wsR (stripEnds l) := by
  unfold stripEnds
  exact chain'_reverse_wsR (chain'_dropWhile (chain'_reverse_wsR (chain'_dropWhile h)))

/-- The head of a `dropWhile` output fails the predicate. -/
theorem dropWhile_head_false {p : Char → Bool} {l : Str} {c : Char}
    (h : (l.dropWhile p).head? = some c) : p c = false := by
  have hd := List.head?_dropWhile_not p l
  rw [h] at hd
  exact hd

/-- The head of a stripped string is not whitespace. -/
theorem stripEnds_head {l : Str} {c : Char} (h : (stripEnds l).head? = some c) :
    isSpace c = false := by
  obtain ⟨s, hs⟩ :=
    List.dropWhile_suffix (l := (List.dropWhile isSpace l).reverse) isSpace
  have hu : l.dropWhile isSpace = stripEnds l ++ s.reverse := by
    have := congrArg List.reverse hs
    simpa [stripEnds, List.reverse_append] using this.symm
  cases hsp : stripEnds l with
  | nil => rw [hsp] at h; simp at h
  | cons c2 t =>
    rw [hsp] at h
    simp at h
    subst h
    apply dropWhile_head_false (p := isSpace) (l := l)
    rw [hu, hsp]
    rfl

/-- The last character of a stripped string is not whitespace. -/
theorem stripEnds_last {l : Str} {c : Char} (h : (stripEnds l).getLast? = some c) :
    isSpace c = false := by
  have h2 : ((l.dropWhile isSpace).reverse.dropWhile isSpace).head? = some c := by
    have := List.head?_reverse ((l.dropWhile isSpace).reverse.dropWhile isSpace)
    rw [← this] at *
    simpa [stripEnds, List.reverse_reverse] using h
  exact dropWhile_head_false h2

/-- `dropWhile` is the identity when the head fails the predicate. -/
theorem dropWhile_eq_self_of_head {p : Char → Bool} {l : Str}
    (h : ∀ c, l.head? = some c → p c = false) : l.dropWhile p = l := by
  cases l with
  | nil => rfl
  | cons a t =>
    rw [List.dropWhile_cons_of_neg]
    simp [h a rfl]

/-- `collapseWs` is the identity on collapsed strings. -/
theorem collapseWs_eq_self :
    ∀ {l : Str}, (∀ c ∈ l, isSpace c = true → c = ' ') → List.Chain' wsR l →
      collapseWs l = l
  | [], _, _ => rfl
  | a :: rest, h1, h2 => by
    by_cases hsa : isSpace a = true
    · have ha : a = ' ' := h1 a (List.mem_cons_self _ _) hsa
      cases rest with
      | nil => rw [collapseWs_single_space hsa, ha]
      | cons b rs =>
        have hb : isSpace b = false := by
          have hab : wsR a b := (List.chain'_cons.mp h2).1
          unfold wsR at hab
          by_contra hc
          exact hab ⟨hsa, by simpa using hc⟩
        have htail : collapseWs (b :: rs) = b :: rs :=
          collapseWs_eq_self (fun c hc hws => h1 c (List.mem_cons_of_mem _ hc) hws)
            (List.chain'_cons.mp h2).2
        rw [collapseWs_cons_space_cons rs hsa hb, htail, ha]
    · have ha2 : isSpace a = false := by simpa using hsa
      have htail : collapseWs rest = rest :=
        collapseWs_eq_self (fun c hc hws => h1 c (List.mem_cons_of_mem _ hc) hws) h2.tail
      rw [collapseWs_cons_not rest ha2, htail]

/-- `stripEnds` is the identity when neither end is whitespace. -/
theorem stripEnds_eq_self {l : Str}
    (hh : ∀ c, l.head? = some c → isSpace c = false)
    (hl : ∀ c, l.getLast? = some c → isSpace c = false) : stripEnds l = l := by
  unfold stripEnds
  rw [dropWhile_eq_self_of_head hh]
  rw [dropWhile_eq_self_of_head fun c hc => hl c (by rwa [List.head?_reverse] at hc)]
  exact List.reverse_reverse l

/-- Collapsing and stripping is idempotent. -/
theorem stripCollapse_idem (z : Str) :
    stripEnds (collapseWs (stripEnds (collapseWs z))) = stripEnds (collapseWs z) := by
  have h1 : ∀ c ∈ stripEnds (collapseWs z), isSpace c = true → c = ' ' :=
    fun c hc => collapseWs_space_eq (mem_stripEnds hc)
  have h2 : List.Chain' wsR (stripEnds (collapseWs z)) :=
    chain'_stripEnds (chain'_collapseWs z)
  rw [collapseWs_eq_self h1 h2]
  exact stripEnds_eq_self (fun c hc => stripEnds_head hc) (fun c hc => stripEnds_last hc)

/-! Claim theorems. -/

/-- Claim C7 (amended): the normalisation of `clean_message_for_logging` is
idempotent on every message whose normalised form is left unchanged by the
mention-deletion and laila-pattern-deletion passes; it is not idempotent in
general, because deleting a laila-pattern match can splice the surrounding
characters into a fresh match. -/
theorem clean_idem_on_stable (msg username : Str)
    (h1 : removeAll ('@' :: lowerStr username) (cleanMessage msg username) =
      cleanMessage msg username)
    (h2 : lailaSub (cleanMessage msg username) = cleanMessage msg username) :
    cleanMessage (cleanMessage msg username) username = cleanMessage msg username := by
  show stripEnds (collapseWs (lailaSub (removeAll ('@' :: lowerStr username)
    (lowerStr (cleanMessage msg username))))) = cleanMessage msg username
  rw [lowerStr_clean, h1, h2]
  exact stripCollapse_idem _

/-- Claim C7 counterexample: normalising "lalailaila" yields "laila", whose
normalisation is empty, so normalize is not idempotent as claimed. -/
theorem clean_not_idem_counterexample :
    cleanMessage (cleanMessage (strL "lalailaila") (strL "bot")) (strL "bot") ≠
      cleanMessage (strL "lalailaila") (strL "bot") := by decide

/-- Claim C7 witness: a concrete stable input for the amended theorem. -/
theorem clean_idem_on_stable_witness :
    (removeAll ('@' :: lowerStr (strL "bot")) (cleanMessage (strL "Hello   World") (strL "bot")) =
      cleanMessage (strL "Hello   World") (strL "bot")) ∧
    (lailaSub (cleanMessage (strL "Hello   World") (strL "bot")) =
      cleanMessage (strL "Hello   World") (strL "bot")) ∧
    cleanMessage (cleanMessage (strL "Hello   World") (strL "bot")) (strL "bot") =
      cleanMessage (strL "Hello   World") (strL "bot") :=
  ⟨by decide, by decide, clean_idem_on_stable _ _ (by decide) (by decide)⟩

/-- Claim C3: on sensitive text both answer-cache operations are no-ops
that make no external call. -/
theorem sensitive_cache_noop (t a : Str) (rows : List (Str × Str)) (c r ap : Bool)
    (h : containsSensitiveData t = true) :
    findAnswerInSheet t rows c r = (none, 0) ∧ saveQaToSheet t a rows c ap = (rows, 0) := by
  unfold findAnswerInSheet saveQaToSheet
  rw [if_pos h, if_pos h]
  exact ⟨rfl, rfl⟩

/-- Claim C3 witness: a concrete sensitive text. -/
theorem sensitive_cache_noop_witness :
    containsSensitiveData (strL "what is my phone number") = true ∧
    findAnswerInSheet (strL "what is my phone number") [] true true = (none, 0) ∧
    saveQaToSheet (strL "what is my phone number") (strL "x") [] true true = ([], 0) :=
  ⟨by decide,
   (sensitive_cache_noop _ (strL "x") [] true true true (by decide)).1,
   (sensitive_cache_noop _ (strL "x") [] true true true (by decide)).2⟩

/-- Claim C10: the sensitive gate of `save_qa_to_sheet` inspects only the
question, so a row is appended even when the answer text is sensitive. -/
theorem save_gate_ignores_answer (q a : Str) (rows : List (Str × Str))
    (hq : containsSensitiveData q = false) (_ha : containsSensitiveData a = true) :
    saveQaToSheet q a rows true true = (rows ++ [(q, a)], 1) := by
  simp [saveQaToSheet, hq]

/-- Claim C10 witness: a clean question with a sensitive answer. -/
theorem save_gate_ignores_answer_witness :
    containsSensitiveData (strL "hello friend") = false ∧
    containsSensitiveData (strL "my password is secret") = true ∧
    saveQaToSheet (strL "hello friend") (strL "my password is secret") [] true true =
      ([(strL "hello friend", strL "my password is secret")], 1) :=
  ⟨by decide, by decide,
   save_gate_ignores_answer _ _ [] (by decide) (by decide)⟩

/-- The full history after a sequence of appends is the suffix of all
appended turns past the overflow point. -/
theorem runHistory_eq_drop (es : List (Str × Str)) :
    runHistory es = (es.map mkTurn).drop (es.length - MAX_HISTORY_LENGTH) := by
  induction es using List.reverseRecOn with
  | nil => simp [runHistory]
  | append_singleton es e ih =>
    have hstep : runHistory (es ++ [e]) = addToHistory (runHistory es) e.1 e.2 := by
      simp [runHistory, List.foldl_append]
    rw [hstep, ih]
    have hLlen : (es.map mkTurn).length = es.length := List.length_map _ _
    have hM : MAX_HISTORY_LENGTH = 20 := rfl
    simp only [addToHistory]
    have hmk : ({ role := e.1, parts := [e.2] } : HistTurn) = mkTurn e := rfl
    rw [hmk]
    split
    case isTrue hcond =>
      rw [List.length_append, List.length_drop, hLlen] at hcond
      simp at hcond
      have hn : MAX_HISTORY_LENGTH ≤ es.length := by omega
      cases hL2 : (es.map mkTurn).drop (es.length - MAX_HISTORY_LENGTH) with
      | nil =>
        have hlen : ((es.map mkTurn).drop (es.length - MAX_HISTORY_LENGTH)).length =
            MAX_HISTORY_LENGTH := by
          rw [List.length_drop, hLlen]
          omega
        rw [hL2] at hlen
        simp [MAX_HISTORY_LENGTH] at hlen
      | cons x xs =>
        have hxs : xs = (es.map mkTurn).drop (es.length - MAX_HISTORY_LENGTH + 1) := by
          rw [← List.tail_drop, hL2]
          rfl
        have harith : (es ++ [e]).length - MAX_HISTORY_LENGTH =
            es.length - MAX_HISTORY_LENGTH + 1 := by
          rw [List.length_append]
          simp
          omega
        have hle : es.length - MAX_HISTORY_LENGTH + 1 ≤ (es.map mkTurn).length := by
          rw [hLlen]
          omega
        rw [harith, List.map_append, List.drop_append_of_le_length hle]
        simp [hxs]
    case isFalse hcond =>
      rw [List.length_append, List.length_drop, hLlen] at hcond
      simp at hcond
      have h0 : es.length - MAX_HISTORY_LENGTH = 0 := by omega
      have h0' : (es ++ [e]).length - MAX_HISTORY_LENGTH = 0 := by
        rw [List.length_append]
        simp
        omega
      rw [h0, h0', List.drop_zero, List.drop_zero, List.map_append]
      rfl

/-- Claim C4: after any sequence of appends on a fresh chat the history
never exceeds `MAX_HISTORY_LENGTH = 20` turns, and on overflow the oldest
turns are the ones evicted (the history is the suffix of the appended
sequence). -/
theorem history_bounded_fifo (es : List (Str × Str)) :
    (runHistory es).length ≤ MAX_HISTORY_LENGTH ∧
    runHistory es = (es.map mkTurn).drop (es.length - MAX_HISTORY_LENGTH) := by
  refine ⟨?_, runHistory_eq_drop es⟩
  rw [runHistory_eq_drop es]
  rw [List.length_drop, List.length_map]
  omega

/-- The rotation loop, fed only quota failures, never answers and makes at
most `fuel` backend calls. -/
theorem rotLoop_quota (keys : List Str) (now : Nat) (oracle : Nat → GenOutcome)
    (h : ∀ n, ∃ m, oracle n = .failure m ∧ isQuotaError m = true) :
    ∀ (fuel idx : Nat) (cd : Str → Nat) (c : Nat),
      (rotLoop keys now oracle fuel idx cd c).result = .exhausted ∧
      (rotLoop keys now oracle fuel idx cd c).calls ≤ c + fuel := by
  intro fuel
  induction fuel with
  | zero =>
    intro idx cd c
    exact ⟨rfl, Nat.le_refl _⟩
  | succ f ih =>
    intro idx cd c
    simp only [rotLoop]
    by_cases hcd : now < cd (keys.getD idx [])
    · rw [if_pos hcd]
      have hr := ih ((idx + 1) % keys.length) cd c
      exact ⟨hr.1, Nat.le_trans hr.2 (by omega)⟩
    · rw [if_neg hcd]
      obtain ⟨m, hm, hq⟩ := h c
      simp only [hm]
      rw [if_pos hq]
      have hr := ih ((idx + 1) % keys.length)
        (fun k => if k = keys.getD idx [] then now + 3600 else cd k) (c + 1)
      exact ⟨hr.1, Nat.le_trans hr.2 (by omega)⟩

/-- Claim C5: with `k` configured credentials whose generative calls all
fail with a quota error, the rotation loop makes at most `k` backend
attempts (cooling-skip iterations and failure retries share the same
budget) and then falls through exhausted. -/
theorem rotation_bounded_attempts (keys : List Str) (now : Nat)
    (oracle : Nat → GenOutcome) (idx : Nat) (cd : Str → Nat)
    (h : ∀ n, ∃ m, oracle n = .failure m ∧ isQuotaError m = true) :
    (rotLoop keys now oracle keys.length idx cd 0).calls ≤ keys.length ∧
    (rotLoop keys now oracle keys.length idx cd 0).result = .exhausted := by
  have hr := rotLoop_quota keys now oracle h keys.length idx cd 0
  exact ⟨by simpa using hr.2, hr.1⟩

/-- Claim C5 witness: five concrete keys, all quota-failing. -/
theorem rotation_bounded_attempts_witness :
    (∀ n, ∃ m, quotaOracle n = .failure m ∧ isQuotaError m = true) ∧
    (rotLoop quotaKeys 0 quotaOracle quotaKeys.length 0 (fun _ => 0) 0).calls ≤
      quotaKeys.length ∧
    (rotLoop quotaKeys 0 quotaOracle quotaKeys.length 0 (fun _ => 0) 0).result =
      .exhausted :=
  ⟨fun n => ⟨strL "429 Quota exceeded", rfl, by decide⟩,
   (rotation_bounded_attempts quotaKeys 0 quotaOracle 0 (fun _ => 0)
     (fun n => ⟨strL "429 Quota exceeded", rfl, by decide⟩)).1,
   (rotation_bounded_attempts quotaKeys 0 quotaOracle 0 (fun _ => 0)
     (fun n => ⟨strL "429 Quota exceeded", rfl, by decide⟩)).2⟩

/-- Claim C6: a non-quota backend error makes the loop return immediately
with the error text, leaving the credential index and every cooldown
unchanged. -/
theorem nonquota_error_immediate_return (keys : List Str) (now : Nat)
    (oracle : Nat → GenOutcome) (fuel idx : Nat) (cd : Str → Nat) (c : Nat) (m : Str)
    (hcd : ¬ now < cd (keys.getD idx []))
    (hm : oracle c = .failure m)
    (hq : isQuotaError m = false) :
    rotLoop keys now oracle (fuel + 1) idx cd c = ⟨.errorReply m, idx, cd, c + 1⟩ := by
  simp only [rotLoop]
  rw [if_neg hcd]
  simp only [hm]
  rw [if_neg (by simp [hq])]

/-- Claim C6 witness: one key, generic failure at the first call. -/
theorem nonquota_error_immediate_return_witness :
    (¬ (0 : Nat) < (fun _ : Str => 0) ([strL "a"].getD 0 [])) ∧
    ((fun _ : Nat => GenOutcome.failure (strL "boom")) 0 = .failure (strL "boom")) ∧
    isQuotaError (strL "boom") = false ∧
    rotLoop [strL "a"] 0 (fun _ => .failure (strL "boom")) 1 0 (fun _ => 0) 0 =
      ⟨.errorReply (strL "boom"), 0, fun _ => 0, 1⟩ :=
  ⟨by decide, rfl, by decide,
   nonquota_error_immediate_return [strL "a"] 0 (fun _ => .failure (strL "boom"))
     0 0 (fun _ => 0) 0 (strL "boom") (by decide) rfl (by decide)⟩

/-- Claim C8: in a private chat with the global flag on, a textual message
that does not trigger the name-saving early return always reaches the
resolver, regardless of the per-chat toggle, reply state, mention state or
classifier verdict. -/
theorem private_chat_always_responds (globalOn chatOn isPrivate : Bool) (t : Str)
    (username : Str) (isReplyToBot nameFound classifierYes : Bool)
    (hg : globalOn = true) (hp : isPrivate = true) (hn : nameFound = false) :
    processDecision globalOn chatOn isPrivate (some t) username
      isReplyToBot nameFound classifierYes = .respond := by
  subst hg hp hn
  simp [processDecision]

/-- Claim C8 witness: private chat, per-chat toggle off, nothing else set. -/
theorem private_chat_always_responds_witness :
    (true = true) ∧ (true = true) ∧ (false = false) ∧
    processDecision true false true (some (strL "hey")) (strL "bot")
      false false false = .respond :=
  ⟨rfl, rfl, rfl,
   private_chat_always_responds true false true (strL "hey") (strL "bot")
     false false false rfl rfl rfl⟩

/-- Claim C9: a message matching a date/time pattern is answered at once
with the formatted time/date reply, before the name-query check, the cache
lookup, the static dictionary and any backend call, and with no cache
write. -/
theorem datetime_shortcircuit (msg : Str) (env : ResolverEnv)
    (h : dateTimePatterns.any (fun p => containsSub p (lowerStr msg)) = true) :
    getBotResponse msg env =
      ⟨some (dateTimeReply (lowerStr msg) env.timeStr env.dateStr), zeroEffects, env.rows⟩ := by
  unfold getBotResponse
  rw [if_pos h]

/-- Claim C9 witness: the concrete query "time kya hai". -/
theorem datetime_shortcircuit_witness :
    dateTimePatterns.any (fun p => containsSub p (lowerStr (strL "time kya hai"))) = true ∧
    getBotResponse (strL "time kya hai") envNoGate =
      ⟨some (dateTimeReply (lowerStr (strL "time kya hai")) envNoGate.timeStr envNoGate.dateStr),
        zeroEffects, envNoGate.rows⟩ :=
  ⟨by decide, datetime_shortcircuit _ _ (by decide)⟩

/-- Claim C1 (amended): the resolver consults the answer cache before the
static dictionary; a message whose normalised text matches a static key is
answered with the static string, without any backend or secondary call and
without a cache write, precisely when the date/time and name-query branches
do not fire and the cache lookup misses. -/
theorem static_hit_requires_cache_miss (msg : Str) (env : ResolverEnv) (s : Str)
    (hd : dateTimePatterns.any (fun p => containsSub p (lowerStr msg)) = false)
    (hn : nameQueryPatterns.any (fun p => containsSub p (lowerStr msg)) = false)
    (hc : (findAnswerInSheet (cleanMessage msg env.username) env.rows env.connOk env.readOk).1 =
      none)
    (hs : (fallbackResponses.find? fun p => p.1 == cleanMessage msg env.username).map Prod.snd =
      some s) :
    (getBotResponse msg env).resp = some s ∧
    (getBotResponse msg env).eff.backendCalls = 0 ∧
    (getBotResponse msg env).eff.gemmaCalls = 0 ∧
    (getBotResponse msg env).eff.sheetSaveCalls = 0 ∧
    (getBotResponse msg env).rows = env.rows := by
  rcases hf : findAnswerInSheet (cleanMessage msg env.username) env.rows env.connOk env.readOk
    with ⟨r, k⟩
  rw [hf] at hc
  simp only at hc
  subst hc
  unfold getBotResponse
  rw [hf]
  simp [hd, hn, hs]

/-- Claim C1 counterexample: with a cached answer stored for "hi", the
message "Hi" is answered from the cache, not from the static dictionary,
and the external cache is consulted. -/
theorem cache_precedes_static_counterexample :
    (getBotResponse (strL "Hi") envCacheHit).resp ≠
      some (strL "Hi there! Laila is ready to help you.") ∧
    (getBotResponse (strL "Hi") envCacheHit).eff.sheetLookups ≠ 0 := by
  decide

/-- Claim C1 witness: "Hi" with an unreachable cache is served statically. -/
theorem static_hit_requires_cache_miss_witness :
    (dateTimePatterns.any (fun p => containsSub p (lowerStr (strL "Hi"))) = false) ∧
    (nameQueryPatterns.any (fun p => containsSub p (lowerStr (strL "Hi"))) = false) ∧
    ((findAnswerInSheet (cleanMessage (strL "Hi") envNoGate.username) envNoGate.rows
      envNoGate.connOk envNoGate.readOk).1 = none) ∧
    ((fallbackResponses.find? fun p => p.1 == cleanMessage (strL "Hi") envNoGate.username).map
      Prod.snd = some (strL "Hi there! Laila is ready to help you.")) ∧
    (getBotResponse (strL "Hi") envNoGate).resp =
      some (strL "Hi there! Laila is ready to help you.") :=
  ⟨by decide, by decide, by decide, by decide,
   (static_hit_requires_cache_miss _ _ _ (by decide) (by decide) (by decide) (by decide)).1⟩

/-- Claim C2 (amended): whenever the gate said yes or the chat is private
(the only way `process_message` invokes it), `get_bot_response` returns a
non-null string for every combination of cache and backend outcomes; on the
remaining path (gate no, group chat) it returns Python `None`. -/
theorem resolver_total_when_gated (msg : Str) (env : ResolverEnv)
    (h : env.shouldUseAI = true ∨ env.isPrivate = true) :
    (getBotResponse msg env).resp.isSome = true := by
  have hb : (env.shouldUseAI || env.isPrivate) = true := by
    rcases h with h | h <;> simp [h]
  unfold getBotResponse
  repeat' split
  all_goals simp_all

/-- Claim C2 counterexample: with the gate off in a group chat the resolver
returns `None` rather than a string. -/
theorem resolver_returns_none_when_ungated :
    (getBotResponse (strL "zzz") envNoGate).resp = none := by decide

/-- Claim C2 witness: a gated-in environment with every external path
failing still yields a reply. -/
theorem resolver_total_when_gated_witness :
    (envGated.shouldUseAI = true ∨ envGated.isPrivate = true) ∧
    (getBotResponse (strL "zzz") envGated).resp.isSome = true :=
  ⟨Or.inl rfl, resolver_total_when_gated _ _ (Or.inl rfl)⟩
